import Mathlib

/-!
Verification of the SBTET results fetch-and-aggregate pipeline (src/app.py).

The development shallowly embeds the core of `app.py`:
* `SBTETScraper.fetch_single_result` (lines 79-106) together with its
  tenacity `@retry(stop=stop_after_attempt(3), wait=wait_fixed(2), reraise=True)`
  decorator, over an abstract per-attempt mechanism outcome;
* `ResultProcessor` (lines 147-209): `_create_dataframe`, `get_summary_stats`,
  `get_branch_performance`, `get_top_performers`, `get_subject_analysis`;
* the orchestration loop of `main` (lines 345-352): the futures dictionary,
  the collection of one result per submitted PIN, and the progress reports.

Machine floats of pandas are modelled as `ℚ`; a pandas missing value (absent
dictionary key or NaN) is modelled as `none` of an `Option` type.
-/

/-! ## String helpers: python's `pat in hay` and `Series.str.contains(..., case=False)` -/

/-- Containment test: the character list `pat` occurs contiguously in the
second list (python `pat in hay` on strings). -/
def hasSubstr (pat : List Char) : List Char → Bool
  | [] => pat.isEmpty
  | c :: t => pat.isPrefixOf (c :: t) || hasSubstr pat t

/-- Python `pat in hay` (case-sensitive substring test). -/
def strContains (hay pat : String) : Bool :=
  hasSubstr pat.toList hay.toList

/-- Character-wise lowercasing (python `str.lower()`; the keywords compared
case-insensitively are ASCII). -/
def strLower (s : String) : String := ⟨s.data.map Char.toLower⟩

/-- Case-insensitive substring test, as performed by
`Series.str.contains(pattern, case=False)` for a literal alternative. -/
def strContainsCI (hay pat : String) : Bool :=
  strContains (strLower hay) (strLower pat)

/-! ## Data model -/

/-- One parsed subject row (`app.py` lines 128-132): the eight `td` texts.
`extMarks`/`intMarks` are the "External"/"Internal" columns. -/
structure SubjectLine where
  subjectName : String
  extMarks : String
  intMarks : String
  totalMarks : String
  gradePoints : String
  creditsEarned : String
  grade : String
  subjectResult : String
deriving DecidableEq, Repr

/-- The dictionary returned by one call of `fetch_single_result`.
`none` models an absent key or a NaN value:
the failure dictionaries (lines 84 and 103) carry only
`PIN NUMBER`, `RESULT` and an empty `Subject Results`, while `_extract_data`
(lines 114-121) fills every field, with `GPA` equal to NaN when
`pd.to_numeric(..., errors='coerce')` cannot parse the cell. -/
structure Record where
  pinNumber : String
  resultText : Option String := none
  studentName : Option String := none
  branch : Option String := none
  gpa : Option ℚ := none
  subjects : List SubjectLine := []
deriving DecidableEq, Repr

/-- One row of `ResultProcessor.df` (the flattened DataFrame):
the union of the record-level columns and the subject-level columns,
with `none` for NaN cells. -/
structure Row where
  pinNumber : String
  resultText : Option String := none
  studentName : Option String := none
  branch : Option String := none
  gpa : Option ℚ := none
  subjectName : Option String := none
  extMarks : Option String := none
  intMarks : Option String := none
  totalMarks : Option String := none
  gradePoints : Option String := none
  creditsEarned : Option String := none
  grade : Option String := none
  subjectResult : Option String := none
deriving DecidableEq, Repr

/-! ## The scraper: `fetch_single_result` and its retry decorator -/

/-- What the result page offers once the result container has appeared:
the raw texts that `_extract_data` reads. `subjectRows` is the list of
`td`-text lists of `//table[2]//tr[position()>1]`. -/
structure PageData where
  studentName : String
  branch : String
  gpaText : String
  resultText : String
  subjectRows : List (List String)
deriving DecidableEq, Repr

/-- Outcome of the underlying mechanism on one attempt:
`initFail` — `webdriver.Chrome` raises, so `_setup_driver` returns `None`
(lines 72-77); `pageFail` — some selenium call inside the `try` block raises
(page unreachable, element missing, or the 15-unit wait for the result
container times out); `success pd` — the result container appeared with
content `pd`. -/
inductive MechStep where
  | initFail : MechStep
  | pageFail : MechStep
  | success : PageData → MechStep
deriving DecidableEq, Repr

/-- The status abstraction of the specification for one mechanism outcome:
driver-initialisation failure is the mechanism `Error`; an exception inside
the page interaction (including the result-container timeout) is `NotFound`;
a located result container is `Resolved`. -/
inductive Status where
  | resolved : Status
  | notFound : Status
  | error : Status
deriving DecidableEq, Repr

/-- Status of the record the body builds for one mechanism outcome,
following the three branches of `fetch_single_result`. -/
def stepStatus : MechStep → Status
  | .initFail => .error
  | .pageFail => .notFound
  | .success _ => .resolved

/-- The `RESULT` cell the body writes for one mechanism outcome:
`"Driver Error"` (line 84), `"Not Found"` (line 103), or the scraped
result text (line 119). -/
def statusText : MechStep → Option String
  | .initFail => some "Driver Error"
  | .pageFail => some "Not Found"
  | .success pd => some pd.resultText

/-- Digit-sequence parse used by `to_numeric`; the full coercion
`pd.to_numeric(s, errors='coerce')` accepts a trimmed decimal-literal cell:
digits with an optional sign and an optional fractional part; anything else
is NaN (`none`). -/
def parseDigits (cs : List Char) : Option ℕ :=
  if cs.isEmpty then none
  else cs.foldl (fun acc c =>
    match acc with
    | some n => if c.isDigit then some (n * 10 + (c.toNat - 48)) else none
    | none => none) (some 0)

/-- Numeric coercion used for the `GPA` cell (line 118). -/
def to_numeric (s : String) : Option ℚ :=
  let signed : ℚ × List Char :=
    match s.toList with
    | '-' :: rest => (-1, rest)
    | '+' :: rest => (1, rest)
    | cs => (1, cs)
  let intPart := signed.2.takeWhile (fun c => c ≠ '.')
  match signed.2.dropWhile (fun c => c ≠ '.') with
  | [] => (parseDigits intPart).map (fun n => signed.1 * n)
  | _ :: frac =>
      match parseDigits intPart, parseDigits frac with
      | some n, some f =>
          some (signed.1 * ((n : ℚ) + (f : ℚ) / (10 ^ frac.length)))
      | _, _ => none

/-- Lines 127-132: a `tr` contributes a subject entry iff it has at least
eight `td` cells; the first eight are kept. -/
def parseSubjectRow (cols : List String) : Option SubjectLine :=
  match cols with
  | a :: b :: c :: d :: e :: f :: g :: h :: _ => some ⟨a, b, c, d, e, f, g, h⟩
  | _ => none

/-- Translation of `_extract_data` (lines 108-135): builds the resolved record. A field whose
element is missing yields `""` via `get_text`, never an aborted attempt;
subject rows with fewer than 8 cells are skipped. -/
def extract_data (pin : String) (pd : PageData) : Record :=
  { pinNumber := pin
    studentName := some pd.studentName
    branch := some pd.branch
    gpa := to_numeric pd.gpaText
    resultText := some pd.resultText
    subjects := pd.subjectRows.filterMap parseSubjectRow }

/-- The failure dictionary of line 84. -/
def driverErrorRecord (pin : String) : Record :=
  { pinNumber := pin, resultText := some "Driver Error" }

/-- The failure dictionary of line 103. -/
def notFoundRecord (pin : String) : Record :=
  { pinNumber := pin, resultText := some "Not Found" }

/-- The body of `fetch_single_result` (lines 80-106) for one attempt.
`mech k` is the mechanism outcome of attempt `k`. The `try ... except
Exception: return {...Not Found...}` around the whole interaction means the
body returns a dictionary on every outcome — it never lets an exception
escape. The `generate_pdf` side effect (lines 95-97) writes a file and does
not alter the returned dictionary, so it does not appear in the result. -/
def fetch_body (mech : ℕ → MechStep) (pin year : String) (generate_pdf : Bool)
    (attempt : ℕ) : Record :=
  match mech attempt with
  | .initFail => driverErrorRecord pin
  | .pageFail => notFoundRecord pin
  | .success pd => extract_data pin pd

/-- Trace of one run of a tenacity-wrapped callable: the final outcome
(`Except.error` when `reraise=True` re-raises after the last attempt), the
number of attempts actually made, and the sequence of inter-attempt waits. -/
structure RetryTrace (α : Type) where
  result : Except String α
  attempts : ℕ
  delays : List ℕ
deriving Repr

/-- tenacity semantics of `@retry(stop=stop_after_attempt(m), wait=wait_fixed(d),
reraise=True)`: run the body; a raised exception is retried after waiting `d`,
up to `m` total attempts, the last exception being re-raised. `remaining` is
the number of retries still allowed after the current attempt `k`. -/
def retryGo (body : ℕ → Except String α) (d : ℕ) : ℕ → ℕ → RetryTrace α
  | 0, k => ⟨body k, k, []⟩
  | n + 1, k =>
    match body k with
    | .ok a => ⟨.ok a, k, []⟩
    | .error _ =>
      let t := retryGo body d n (k + 1)
      ⟨t.result, t.attempts, d :: t.delays⟩

/-- Retry policy constants of line 79. -/
def stop_after_attempt : ℕ := 3

/-- Fixed inter-attempt wait of line 79. -/
def wait_fixed : ℕ := 2

/-- The function `fetch_single_result` as called by the orchestrator: the tenacity
decorator of line 79 wrapped around the body. The body never raises (its
`try/except Exception` returns a dictionary on every path), which is recorded
here by lifting it with `Except.ok`. -/
def fetch_single_result (mech : ℕ → MechStep) (pin year : String)
    (generate_pdf : Bool) : RetryTrace Record :=
  retryGo (fun k => Except.ok (fetch_body mech pin year generate_pdf k))
    wait_fixed (stop_after_attempt - 1) 1

/-! ## The orchestration loop of `main` (lines 345-352) -/

/-- Python `dict` insertion: replace the value at an existing key, otherwise
append the pair (insertion order is preserved). -/
def dictInsert (m : List (ℕ × String)) (k : ℕ) (v : String) : List (ℕ × String) :=
  if m.any (fun p => p.1 == k) then
    m.map (fun p => if p.1 = k then (k, v) else p)
  else m ++ [(k, v)]

/-- Line 346: `{executor.submit(...): pin for pin in pin_list}`. Each
`executor.submit` call returns a fresh `Future` object; futures are modelled
by their submission index, so duplicates in `pin_list` get distinct keys. -/
def future_to_pin (pins : List String) : List (ℕ × String) :=
  pins.enum.foldl (fun m kv => dictInsert m kv.1 kv.2) []

/-- Lines 345-349: one `future.result()` appended per entry of the futures
dictionary, iterated in insertion order. `fetch` is the per-PIN result of
`scraper.fetch_single_result` (deterministic stub view); `max_workers` only
bounds concurrency and does not enter the collected data. -/
def runAll (fetch : String → Record) (max_workers : ℕ) (pins : List String) :
    List Record :=
  (future_to_pin pins).map (fun kv => fetch kv.2)

/-- Line 350: the completed counts passed to `progress_bar.progress`, i.e.
`i + 1` for `i, future in enumerate(future_to_pin)` (the displayed fraction is
`(i+1)/total_pins`). -/
def progressReports (pins : List String) : List ℕ :=
  (future_to_pin pins).enum.map (fun p => p.1 + 1)

/-! ## `ResultProcessor`: the flattened DataFrame -/

/-- The record-level columns of a row (`base` in `_create_dataframe`). -/
def baseRow (r : Record) : Row :=
  { pinNumber := r.pinNumber, resultText := r.resultText,
    studentName := r.studentName, branch := r.branch, gpa := r.gpa }

/-- Merge `{**base, **sub}` of line 161: a subject row carries the record columns and the
subject columns. -/
def subjectRow (r : Record) (s : SubjectLine) : Row :=
  { pinNumber := r.pinNumber, resultText := r.resultText,
    studentName := r.studentName, branch := r.branch, gpa := r.gpa,
    subjectName := some s.subjectName, extMarks := some s.extMarks,
    intMarks := some s.intMarks, totalMarks := some s.totalMarks,
    gradePoints := some s.gradePoints, creditsEarned := some s.creditsEarned,
    grade := some s.grade, subjectResult := some s.subjectResult }

/-- Lines 157-163: a record with subject entries contributes one row per
subject; otherwise it contributes its base row (a record dictionary is
nonempty, so `elif r` is always true). -/
def record_rows (r : Record) : List Row :=
  match r.subjects with
  | [] => [baseRow r]
  | subs => subs.map (subjectRow r)

/-- Translation of `_create_dataframe` (lines 153-164). The `r is not None` filter is
vacuous here: every collected result is a dictionary. -/
def create_dataframe (records : List Record) : List Row :=
  records.flatMap record_rows

/-- Pandas `drop_duplicates(subset=[key])`: keep the first row for each key value.
`seen` is the set of key values already kept. -/
def dropDupBy (key : α → String) : List String → List α → List α
  | _, [] => []
  | seen, r :: rs =>
    if key r ∈ seen then dropDupBy key seen rs
    else r :: dropDupBy key (key r :: seen) rs

/-- Pandas `Series.nunique()`: the number of distinct (non-null) values. -/
def nunique (l : List String) : ℕ := l.dedup.length

/-- The `unique_students` frame of lines 171 and 181. -/
def uniqRows (df : List Row) : List Row := dropDupBy Row.pinNumber [] df

/-- First occurrences of each value, in order (group keys of a groupby). -/
def firstDistinct (l : List String) : List String := dropDupBy id [] l

/-- Stable insertion into a list sorted by `le` (`le a b` = `a` may precede
`b`): `a` is placed before the first element it may precede. -/
def insertByB (le : α → α → Bool) (a : α) : List α → List α
  | [] => [a]
  | b :: bs => if le a b then a :: b :: bs else b :: insertByB le a bs

/-- Stable insertion sort by `le`. -/
def sortByB (le : α → α → Bool) : List α → List α
  | [] => []
  | a :: as => insertByB le a (sortByB le as)

/-- Python `round(x, 2)` on a rational. -/
def round2 (q : ℚ) : ℚ := (round (q * 100) : ℤ) / 100

/-! ## `get_summary_stats` (lines 166-174) -/

/-- Output dictionary of `get_summary_stats`. -/
structure SummaryStats where
  total : ℕ
  passed : ℕ
  failed : ℕ
deriving DecidableEq, Repr

/-- Line 173's predicate: `RESULT.str.contains("Pass|Distinction|First",
case=False, na=False)` — case-insensitive, NaN counts as no match. -/
def summaryPass : Option String → Bool
  | none => false
  | some s => strContainsCI s "Pass" || strContainsCI s "Distinction" ||
      strContainsCI s "First"

/-- Translation of `get_summary_stats` (lines 166-174). -/
def get_summary_stats (records : List Record) : SummaryStats :=
  let df := create_dataframe records
  if df.isEmpty then ⟨0, 0, 0⟩
  else
    let uniq := uniqRows df
    let total := nunique (uniq.map Row.pinNumber)
    let passed := (uniq.filter (fun r => summaryPass r.resultText)).length
    ⟨total, passed, total - passed⟩

/-! ## `get_branch_performance` (lines 176-188) -/

/-- Output row of the branch table: Pass, Fail, Total, Pass Rate (%). -/
structure BranchRow where
  branch : String
  passCount : ℕ
  failCount : ℕ
  totalCount : ℕ
  passRate : ℚ
deriving DecidableEq, Repr

/-- Line 182's classification: `'Pass' if isinstance(x, str) and
any(p in x for p in ["Pass", "Distinction", "First"]) else 'Fail'` —
case-sensitive containment; a non-string (NaN) is `Fail`. -/
def branchStatus : Option String → Bool
  | none => false
  | some s => strContains s "Pass" || strContains s "Distinction" ||
      strContains s "First"

/-- Rows of one branch group (`groupby('BRANCH')` keeps only non-null keys). -/
def branchGroup (rows : List Row) (b : String) : List Row :=
  rows.filter (fun r => decide (r.branch = some b))

/-- Pass count of one branch group. -/
def branchPassCount (rows : List Row) (b : String) : ℕ :=
  ((branchGroup rows b).filter (fun r => branchStatus r.resultText)).length

/-- Fail count of one branch group. -/
def branchFailCount (rows : List Row) (b : String) : ℕ :=
  ((branchGroup rows b).filter (fun r => !branchStatus r.resultText)).length

/-- One line of the branch table (lines 183-187): `Total = Pass + Fail`,
`Pass Rate (%) = (Pass / Total * 100).round(2)`. -/
def mkBranchRow (rows : List Row) (b : String) : BranchRow :=
  { branch := b
    passCount := branchPassCount rows b
    failCount := branchFailCount rows b
    totalCount := branchPassCount rows b + branchFailCount rows b
    passRate := round2 ((branchPassCount rows b : ℚ) /
      ((branchPassCount rows b + branchFailCount rows b : ℕ) : ℚ) * 100) }

/-- Translation of `get_branch_performance` (lines 176-188). The guard of line 178 returns
`None` when the frame is empty, the `BRANCH` column is absent (no record
carries the key, so every row's value is null), or `BRANCH.nunique() < 1`
(every present value is null). Output rows are sorted by descending pass
rate (line 188). -/
def get_branch_performance (records : List Record) : Option (List BranchRow) :=
  let df := create_dataframe records
  if df = [] ∨ nunique (df.filterMap Row.branch) < 1 then none
  else
    let uniq := uniqRows df
    some (sortByB (fun a b => decide (b.passRate ≤ a.passRate))
      ((firstDistinct (uniq.filterMap Row.branch)).map (mkBranchRow uniq)))

/-! ## `get_top_performers` (lines 190-195) -/

/-- The projected columns `[['PIN NUMBER', 'STUDENT NAME', 'BRANCH', 'GPA']]`. -/
structure PerfRow where
  pinNumber : String
  studentName : Option String
  branch : Option String
  gpa : Option ℚ
deriving DecidableEq, Repr

/-- Column projection of line 195. -/
def projPerf (r : Row) : PerfRow := ⟨r.pinNumber, r.studentName, r.branch, r.gpa⟩

/-- Sort key for `nlargest(n, 'GPA')`; rows reaching the sort passed
`dropna(subset=['GPA'])`, so the default is never consulted. -/
def gpaKey (r : PerfRow) : ℚ := r.gpa.getD 0

/-- Translation of `get_top_performers` (lines 190-195): project, `dropna(subset=['GPA'])`,
`drop_duplicates(subset=['PIN NUMBER'])`, `nlargest(n, 'GPA')` (descending,
earlier rows keeping priority on ties). The guard of line 192 returns an
empty frame when `df` is empty or the `GPA` column is absent; in the latter
case every row's `GPA` is null, so the `dropna` pipeline below also yields
the empty frame. -/
def get_top_performers (records : List Record) (n : ℕ) : List PerfRow :=
  if (create_dataframe records).isEmpty then []
  else
    (sortByB (fun a b => decide (gpaKey b ≤ gpaKey a))
      (dropDupBy PerfRow.pinNumber []
        (((create_dataframe records).map projPerf).filter
          (fun r => r.gpa.isSome)))).take n

/-! ## `get_subject_analysis` (lines 197-209) -/

/-- Output row of the subject table. -/
structure SubjectStatsRow where
  subjectName : String
  passCount : ℕ
  failCount : ℕ
  totalCount : ℕ
  passRate : ℚ
deriving DecidableEq, Repr

/-- The `dropna(subset=['Subject Name', 'SUB.Result'])` frame of line 202. -/
def subjectRowsOf (df : List Row) : List Row :=
  df.filter (fun r => r.subjectName.isSome && r.subjectResult.isSome)

/-- Rows of one subject group. -/
def subjectGroup (rows : List Row) (b : String) : List Row :=
  rows.filter (fun r => decide (r.subjectName = some b))

/-- Line 203: a subject line passes iff `SUB.Result == 'P'`. -/
def subjectPassCount (rows : List Row) (b : String) : ℕ :=
  ((subjectGroup rows b).filter
    (fun r => decide (r.subjectResult = some "P"))).length

/-- Subject lines of a group that are not a pass. -/
def subjectFailCount (rows : List Row) (b : String) : ℕ :=
  ((subjectGroup rows b).filter
    (fun r => !decide (r.subjectResult = some "P"))).length

/-- One line of the subject table (lines 204-208). -/
def mkSubjectRow (rows : List Row) (b : String) : SubjectStatsRow :=
  { subjectName := b
    passCount := subjectPassCount rows b
    failCount := subjectFailCount rows b
    totalCount := subjectPassCount rows b + subjectFailCount rows b
    passRate := round2 ((subjectPassCount rows b : ℚ) /
      ((subjectPassCount rows b + subjectFailCount rows b : ℕ) : ℚ) * 100) }

/-- Translation of `get_subject_analysis` (lines 197-209): operates on the flattened frame
(no deduplication by PIN), drops rows with a missing subject name or subject
result, groups by subject name, and sorts by ascending pass rate (line 209).
The guard of line 199 returns `None` when the frame is empty or the
`Subject Name` column is absent — the column exists iff some record
contributed a subject row, i.e. iff some row's `subjectName` is non-null. -/
def get_subject_analysis (records : List Record) :
    Option (List SubjectStatsRow) :=
  let df := create_dataframe records
  if df = [] ∨ ∀ r ∈ df, r.subjectName = none then none
  else
    let subs := subjectRowsOf df
    some (sortByB (fun a b => decide (a.passRate ≤ b.passRate))
      ((firstDistinct (subs.filterMap Row.subjectName)).map (mkSubjectRow subs)))

/-! ## Fetch stubs used to evaluate the retry behaviour -/

/-- A mechanism that raises on every attempt (e.g. the page is unreachable). -/
def alwaysPageFail : ℕ → MechStep := fun _ => MechStep.pageFail

/-- A mechanism whose driver initialisation fails on every attempt. -/
def alwaysInitFail : ℕ → MechStep := fun _ => MechStep.initFail

/-- A mechanism that fails on attempts 1 and 2 and succeeds from attempt 3 on
(the spec's fail-fail-succeed stub). -/
def failsTwiceThenSucceeds (pd : PageData) : ℕ → MechStep :=
  fun k => if 3 ≤ k then MechStep.success pd else MechStep.pageFail

/-- Mechanism stub used by the C9 witness. -/
def mechC9 : ℕ → MechStep := fun _ => MechStep.pageFail

/-! ## C5: order of dropna and drop_duplicates in `get_top_performers` -/

/-- Variant of `topN` in the order the claim states it: deduplicate by identifier
first, then drop rows with absent gpa, then stable-sort descending by gpa
and take `n` (written from the claim's words, for comparison with the
code). -/
def topNClaimOrder (records : List Record) (n : ℕ) : List PerfRow :=
  (sortByB (fun a b => decide (gpaKey b ≤ gpaKey a))
    ((dropDupBy PerfRow.pinNumber []
      ((create_dataframe records).map projPerf)).filter
        (fun r => r.gpa.isSome))).take n

/-- Variant of `topN` as amended: drop rows with absent gpa first, then deduplicate
by identifier (first occurrence wins), stable-sort descending by gpa, and
take `n` (written from the amended claim's words). -/
def topNAmended (records : List Record) (n : ℕ) : List PerfRow :=
  (sortByB (fun a b => decide (gpaKey b ≤ gpaKey a))
    (dropDupBy PerfRow.pinNumber []
      (((create_dataframe records).map projPerf).filter
        (fun r => r.gpa.isSome)))).take n

/-- A fetch of PIN "X" that found nothing: no GPA. -/
def exRecC5dup1 : Record := { pinNumber := "X", resultText := some "Not Found" }

/-- A second fetch of the duplicated PIN "X" that resolved with GPA 8. -/
def exRecC5dup2 : Record :=
  { pinNumber := "X", resultText := some "Pass", studentName := some "Sam",
    branch := some "CM", gpa := some (Rat.mk' 8 1) }

/-- GPA of student A in the spec's `topN` example (8.5). -/
def qA : ℚ := Rat.mk' 17 2

/-- GPA of student C in the spec's `topN` example (9.1). -/
def qC : ℚ := Rat.mk' 91 10

/-- Student A of the `topN` example. -/
def exRecC5A : Record :=
  { pinNumber := "A", resultText := some "First Class", studentName := some "Alice",
    branch := some "CM", gpa := some qA }

/-- Student B of the `topN` example (absent gpa). -/
def exRecC5B : Record :=
  { pinNumber := "B", resultText := some "Fail", studentName := some "Bob",
    branch := some "CM", gpa := none }

/-- Student C of the `topN` example. -/
def exRecC5C : Record :=
  { pinNumber := "C", resultText := some "Distinction", studentName := some "Cara",
    branch := some "EC", gpa := some qC }

/-- The record whose resultText is the lowercase "pass" (C10). -/
def exRecC10 : Record :=
  { pinNumber := "P1", resultText := some "pass", branch := some "CM" }

/-- Record used by the C6 witness. -/
def exRecC6 : Record :=
  { pinNumber := "A", resultText := some "First Class", branch := some "CM" }

/-- Input of the C6 witness. -/
def exC6 : List Record := [exRecC6]

/-- Expected branch table of the C6 witness. -/
def exC6tbl : List BranchRow := [⟨"CM", 1, 0, 1, 100⟩]

/-- A passing Math subject line (C7 witness data). -/
def slMathP : SubjectLine := ⟨"Math", "50", "20", "70", "7", "5", "A", "P"⟩

/-- A failing Math subject line (C7 witness data). -/
def slMathF : SubjectLine := ⟨"Math", "10", "5", "15", "0", "0", "F", "F"⟩

/-- First record of the C7 witness. -/
def exRecC7a : Record :=
  { pinNumber := "J1", resultText := some "Pass", subjects := [slMathP] }

/-- Second record of the C7 witness. -/
def exRecC7b : Record :=
  { pinNumber := "J2", resultText := some "Fail", subjects := [slMathF] }

/-- Input of the C7 witness. -/
def exC7 : List Record := [exRecC7a, exRecC7b]

/-- Expected subject table of the C7 witness. -/
def exC7tbl : List SubjectStatsRow := [⟨"Math", 1, 1, 2, 50⟩]

/-! ## Helper lemmas -/

theorem mem_insertByB (le : α → α → Bool) (a x : α) :
    ∀ l : List α, x ∈ insertByB le a l ↔ x = a ∨ x ∈ l := by
  intro l
  induction l with
  | nil => simp [insertByB]
  | cons b bs ih =>
    by_cases h : le a b = true
    · simp [insertByB, h]
    · have hb : le a b = false := by
        cases hle : le a b
        · rfl
        · exact absurd hle h
      rw [show insertByB le a (b :: bs) = b :: insertByB le a bs from by
        simp [insertByB, hb]]
      simp only [List.mem_cons, ih]
      tauto

theorem mem_sortByB (le : α → α → Bool) (x : α) :
    ∀ l : List α, x ∈ sortByB le l ↔ x ∈ l := by
  intro l
  induction l with
  | nil => simp [sortByB]
  | cons b bs ih => simp [sortByB, mem_insertByB, ih]

theorem sorted_insertByB (le : α → α → Bool)
    (htot : ∀ x y, le x y = true ∨ le y x = true)
    (htrans : ∀ x y z, le x y = true → le y z = true → le x z = true)
    (a : α) : ∀ l : List α, List.Sorted (fun x y => le x y = true) l →
      List.Sorted (fun x y => le x y = true) (insertByB le a l) := by
  intro l
  induction l with
  | nil => intro _; simp [insertByB]
  | cons b bs ih =>
    intro hs
    rw [List.sorted_cons] at hs
    by_cases h : le a b = true
    · rw [show insertByB le a (b :: bs) = a :: b :: bs from by simp [insertByB, h]]
      rw [List.sorted_cons]
      refine ⟨?_, by rw [List.sorted_cons]; exact hs⟩
      intro c hc
      rcases List.mem_cons.mp hc with h1 | hc
      · rw [h1]; exact h
      · exact htrans a b c h (hs.1 c hc)
    · have hb : le a b = false := by
        cases hle : le a b
        · rfl
        · exact absurd hle h
      rw [show insertByB le a (b :: bs) = b :: insertByB le a bs from by
        simp [insertByB, hb]]
      rw [List.sorted_cons]
      refine ⟨?_, ih hs.2⟩
      intro c hc
      rcases (mem_insertByB le a c bs).mp hc with h1 | hc
      · rw [h1]
        rcases htot a b with h2 | h2
        · exact absurd h2 h
        · exact h2
      · exact hs.1 c hc

theorem sorted_sortByB (le : α → α → Bool)
    (htot : ∀ x y, le x y = true ∨ le y x = true)
    (htrans : ∀ x y z, le x y = true → le y z = true → le x z = true) :
    ∀ l : List α, List.Sorted (fun x y => le x y = true) (sortByB le l) := by
  intro l
  induction l with
  | nil => simp [sortByB]
  | cons b bs ih => exact sorted_insertByB le htot htrans b _ ih

theorem mem_dropDupBy_key (key : α → String) (s : String) :
    ∀ (l : List α) (seen : List String),
      (s ∈ (dropDupBy key seen l).map key) ↔ s ∈ l.map key ∧ s ∉ seen := by
  intro l
  induction l with
  | nil => intro seen; simp [dropDupBy]
  | cons r rs ih =>
    intro seen
    by_cases h : key r ∈ seen
    · rw [show dropDupBy key seen (r :: rs) = dropDupBy key seen rs from by
        simp [dropDupBy, h]]
      rw [ih]
      simp only [List.map_cons, List.mem_cons]
      aesop
    · rw [show dropDupBy key seen (r :: rs) = r :: dropDupBy key (key r :: seen) rs from by
        simp [dropDupBy, h]]
      simp only [List.map_cons, List.mem_cons]
      rw [ih (key r :: seen)]
      by_cases hxk : s = key r
      · subst hxk; simp [h]
      · simp [hxk, List.mem_cons]

theorem dropDupBy_key_nodup (key : α → String) :
    ∀ (l : List α) (seen : List String),
      ((dropDupBy key seen l).map key).Nodup := by
  intro l
  induction l with
  | nil => intro seen; simp [dropDupBy]
  | cons r rs ih =>
    intro seen
    by_cases h : key r ∈ seen
    · rw [show dropDupBy key seen (r :: rs) = dropDupBy key seen rs from by
        simp [dropDupBy, h]]
      exact ih seen
    · rw [show dropDupBy key seen (r :: rs) = r :: dropDupBy key (key r :: seen) rs from by
        simp [dropDupBy, h]]
      rw [List.map_cons, List.nodup_cons]
      refine ⟨fun hmem => ?_, ih (key r :: seen)⟩
      exact ((mem_dropDupBy_key key (key r) rs (key r :: seen)).mp hmem).2 (by simp)

theorem dropDupBy_key_toFinset (key : α → String) (l : List α) (seen : List String) :
    ((dropDupBy key seen l).map key).toFinset =
      (l.map key).toFinset \ seen.toFinset := by
  ext x
  simp only [Finset.mem_sdiff, List.mem_toFinset, mem_dropDupBy_key]

theorem nunique_dropDupBy (key : α → String) (l : List α) :
    nunique ((dropDupBy key [] l).map key) = (l.map key).dedup.length := by
  unfold nunique
  rw [← List.card_toFinset, ← List.card_toFinset, dropDupBy_key_toFinset]
  simp

theorem length_dropDupBy_eq (key : α → String) (l : List α) :
    nunique ((dropDupBy key [] l).map key) = (dropDupBy key [] l).length := by
  unfold nunique
  rw [(dropDupBy_key_nodup key l []).dedup, List.length_map]

theorem foldl_dictInsert (l : List String) :
    ∀ (n : ℕ) (m : List (ℕ × String)), (∀ p ∈ m, p.1 < n) →
      (List.enumFrom n l).foldl (fun m kv => dictInsert m kv.1 kv.2) m =
        m ++ List.enumFrom n l := by
  induction l with
  | nil => intro n m _; simp
  | cons a l ih =>
    intro n m hm
    have hins : dictInsert m n a = m ++ [(n, a)] := by
      unfold dictInsert
      rw [if_neg]
      simp only [List.any_eq_true, beq_iff_eq, not_exists, not_and]
      intro p hp
      exact Nat.ne_of_lt (hm p hp)
    show (List.enumFrom n (a :: l)).foldl (fun m kv => dictInsert m kv.1 kv.2) m = _
    rw [show List.enumFrom n (a :: l) = (n, a) :: List.enumFrom (n + 1) l from rfl]
    rw [List.foldl_cons, hins, ih (n + 1) (m ++ [(n, a)]) ?_]
    · simp
    · intro p hp
      rcases List.mem_append.mp hp with h | h
      · exact Nat.lt_succ_of_lt (hm p h)
      · simp only [List.mem_singleton] at h
        subst h
        exact Nat.lt_succ_self n

theorem future_to_pin_eq (pins : List String) : future_to_pin pins = pins.enum := by
  unfold future_to_pin
  have h := foldl_dictInsert pins 0 [] (by simp)
  simpa [List.enum] using h

theorem enum_map_succ (l : List α) :
    l.enum.map (fun p => p.1 + 1) = (List.range l.length).map (fun i => i + 1) := by
  have h : l.enum.map (fun p => p.1 + 1) =
      (l.enum.map Prod.fst).map (fun i => i + 1) := by
    rw [List.map_map]; rfl
  rw [h, List.enum_map_fst]

theorem progressReports_eq (pins : List String) :
    progressReports pins = (List.range pins.length).map (fun i => i + 1) := by
  unfold progressReports
  rw [future_to_pin_eq, enum_map_succ, List.enum_length]

/-! ## Claim theorems -/

/-- Claim C1 (code bug evaluation): against an always-failing mechanism,
`fetch_single_result` makes exactly one attempt, waits zero times, and
returns a "Not Found" record (or a "Driver Error" record when the driver
cannot initialise) — never the claimed three attempts ending in an Error
status; and against a fail-fail-succeed mechanism it likewise stops after
one attempt with "Not Found" instead of reaching the successful third
attempt. The body's blanket `except Exception` returns normally on every
mechanism failure, so the tenacity retry decorator of line 79 — which only
retries raised exceptions — never fires. -/
theorem claim_C1_retry_never_fires (pin year : String) (gp : Bool) (pd : PageData) :
    fetch_single_result alwaysPageFail pin year gp =
      ⟨Except.ok (notFoundRecord pin), 1, []⟩ ∧
    fetch_single_result alwaysInitFail pin year gp =
      ⟨Except.ok (driverErrorRecord pin), 1, []⟩ ∧
    fetch_single_result (failsTwiceThenSucceeds pd) pin year gp =
      ⟨Except.ok (notFoundRecord pin), 1, []⟩ :=
  ⟨rfl, rfl, rfl⟩

/-- Claim C2: `fetch_single_result` never raises to its caller — for every
mechanism behaviour it returns (on its first attempt) the record built by the
body, and every failure outcome is encoded in that record's `RESULT` field
(`"Driver Error"` for driver-initialisation failure, `"Not Found"` for a
mechanism failure or result-container timeout, the scraped result text on
success). -/
theorem claim_C2_never_raises (mech : ℕ → MechStep) (pin year : String) (gp : Bool) :
    (fetch_single_result mech pin year gp).result =
      Except.ok (fetch_body mech pin year gp 1) ∧
    (fetch_body mech pin year gp 1).resultText = statusText (mech 1) := by
  refine ⟨rfl, ?_⟩
  unfold fetch_body
  cases hm : mech 1 <;> rfl

/-- Claim C9: a record produced by `fetch_single_result` whose status is not
Resolved (i.e. the mechanism outcome of the attempt was a failure) has an
empty `subjects` list and an absent `gpa`. -/
theorem claim_C9_failure_fields (mech : ℕ → MechStep) (pin year : String) (gp : Bool)
    (h : stepStatus (mech 1) ≠ Status.resolved) :
    (fetch_single_result mech pin year gp).result =
      Except.ok (fetch_body mech pin year gp 1) ∧
    (fetch_body mech pin year gp 1).subjects = [] ∧
    (fetch_body mech pin year gp 1).gpa = none := by
  refine ⟨rfl, ?_, ?_⟩ <;>
  · unfold fetch_body
    cases hm : mech 1
    · rfl
    · rfl
    · exact absurd (show stepStatus (mech 1) = Status.resolved by rw [hm]; rfl) h

/-- Witness for C9 at a concrete failing mechanism and PIN. -/
theorem claim_C9_witness :
    stepStatus (mechC9 1) ≠ Status.resolved ∧
    ((fetch_single_result mechC9 "23315-CM-001" "1YEAR" false).result =
        Except.ok (fetch_body mechC9 "23315-CM-001" "1YEAR" false 1) ∧
      (fetch_body mechC9 "23315-CM-001" "1YEAR" false 1).subjects = [] ∧
      (fetch_body mechC9 "23315-CM-001" "1YEAR" false 1).gpa = none) :=
  ⟨by decide, claim_C9_failure_fields mechC9 "23315-CM-001" "1YEAR" false (by decide)⟩

/-- Claim C3: the orchestration loop collects exactly one record per
submitted PIN — the output has the length of the input PIN list (duplicates
included) and equals the per-PIN fetch results in submission order,
for every worker limit `w`. -/
theorem claim_C3_one_record_per_key (fetch : String → Record) (w : ℕ)
    (pins : List String) :
    (runAll fetch w pins).length = pins.length ∧
    runAll fetch w pins = pins.map fetch := by
  have h2 : runAll fetch w pins = pins.map fetch := by
    unfold runAll
    rw [future_to_pin_eq]
    have h3 : (pins.enum.map fun kv => fetch kv.2) =
        (pins.enum.map Prod.snd).map fetch := by
      rw [List.map_map]; rfl
    rw [h3, List.enum_map_snd]
  exact ⟨by rw [h2, List.length_map], h2⟩

/-- Claim C8: for a nonempty PIN list, the completed counts reported by the
orchestration loop are monotonically non-decreasing, and the final report —
with completed count equal to the total number of submitted PINs — occurs
exactly once, as the last report. -/
theorem claim_C8_progress (pins : List String) (h : pins ≠ []) :
    List.Sorted (· ≤ ·) (progressReports pins) ∧
    (progressReports pins).count pins.length = 1 ∧
    (progressReports pins).getLast? = some pins.length := by
  obtain ⟨m, hm⟩ : ∃ m, pins.length = m + 1 := by
    cases pins with
    | nil => exact absurd rfl h
    | cons a l => exact ⟨l.length, rfl⟩
  have hinj : Function.Injective (fun i : ℕ => i + 1) := fun a b hab => by
    simpa using hab
  rw [progressReports_eq]
  refine ⟨?_, ?_, ?_⟩
  · show ((List.range pins.length).map (fun i => i + 1)).Pairwise (· ≤ ·)
    rw [List.pairwise_map]
    exact (List.pairwise_lt_range _).imp fun hab => Nat.succ_le_succ (Nat.le_of_lt hab)
  · have hnodup : ((List.range pins.length).map (fun i => i + 1)).Nodup :=
      (List.nodup_range _).map hinj
    have hmem : pins.length ∈ (List.range pins.length).map (fun i => i + 1) := by
      rw [List.mem_map]
      refine ⟨m, ?_, by omega⟩
      rw [hm]
      simp
    exact List.count_eq_one_of_mem hnodup hmem
  · rw [hm, List.range_succ, List.map_append]
    simp only [List.map_cons, List.map_nil]
    rw [List.getLast?_concat]

theorem dropDupBy_first_occurrence (key : α → String) :
    ∀ (l : List α) (seen : List String) (r : α), r ∈ dropDupBy key seen l →
      l.find? (fun x => key x == key r) = some r := by
  intro l
  induction l with
  | nil => intro seen r hr; simp [dropDupBy] at hr
  | cons a rs ih =>
    intro seen r hr
    by_cases h : key a ∈ seen
    · rw [show dropDupBy key seen (a :: rs) = dropDupBy key seen rs from by
        simp [dropDupBy, h]] at hr
      have hne : key a ≠ key r := by
        intro he
        have : key r ∈ (dropDupBy key seen rs).map key :=
          List.mem_map.mpr ⟨r, hr, rfl⟩
        exact ((mem_dropDupBy_key key (key r) rs seen).mp this).2 (he ▸ h)
      rw [List.find?_cons_of_neg _ (by simpa using hne)]
      exact ih seen r hr
    · rw [show dropDupBy key seen (a :: rs) = a :: dropDupBy key (key a :: seen) rs from by
        simp [dropDupBy, h]] at hr
      rcases List.mem_cons.mp hr with h1 | h1
      · subst h1
        rw [List.find?_cons_of_pos _ (by simp)]
      · have hne : key a ≠ key r := by
          intro he
          have : key r ∈ (dropDupBy key (key a :: seen) rs).map key :=
            List.mem_map.mpr ⟨r, h1, rfl⟩
          exact ((mem_dropDupBy_key key (key r) rs (key a :: seen)).mp this).2
            (by rw [← he]; simp)
        rw [List.find?_cons_of_neg _ (by simpa using hne)]
        exact ih (key a :: seen) r h1

/-- Witness for C8 at a concrete two-PIN list. -/
theorem claim_C8_witness :
    (["23315-CM-001", "23315-CM-002"] : List String) ≠ [] ∧
    (List.Sorted (· ≤ ·) (progressReports ["23315-CM-001", "23315-CM-002"]) ∧
      (progressReports ["23315-CM-001", "23315-CM-002"]).count
        (["23315-CM-001", "23315-CM-002"] : List String).length = 1 ∧
      (progressReports ["23315-CM-001", "23315-CM-002"]).getLast? =
        some (["23315-CM-001", "23315-CM-002"] : List String).length) :=
  ⟨by decide, claim_C8_progress ["23315-CM-001", "23315-CM-002"] (by decide)⟩

/-- Claim C4: `get_summary_stats` collapses the frame to one row per PIN —
the collapsed rows have pairwise-distinct PINs and each is the first row of
the frame carrying its PIN (first occurrence wins, deterministic) — and
returns `total` = the number of distinct PINs, `passed` = the number of
collapsed rows whose `RESULT` case-insensitively contains "Pass",
"Distinction" or "First", and `failed` = `total - passed` (with
`passed ≤ total`); on an empty input it returns all zeros. -/
theorem claim_C4_summary :
    (∀ records : List Record,
      ((uniqRows (create_dataframe records)).map Row.pinNumber).Nodup ∧
      (∀ r ∈ uniqRows (create_dataframe records),
        (create_dataframe records).find?
          (fun x => x.pinNumber == r.pinNumber) = some r) ∧
      (get_summary_stats records).total =
        ((create_dataframe records).map Row.pinNumber).dedup.length ∧
      (get_summary_stats records).passed =
        ((uniqRows (create_dataframe records)).filter
          (fun r => summaryPass r.resultText)).length ∧
      (get_summary_stats records).passed ≤ (get_summary_stats records).total ∧
      (get_summary_stats records).failed =
        (get_summary_stats records).total - (get_summary_stats records).passed) ∧
    get_summary_stats [] = ⟨0, 0, 0⟩ := by
  constructor
  · intro records
    refine ⟨dropDupBy_key_nodup Row.pinNumber _ [],
      fun r hr => dropDupBy_first_occurrence Row.pinNumber _ [] r hr, ?_⟩
    by_cases hdf : (create_dataframe records).isEmpty = true
    · have hnil : create_dataframe records = [] := List.isEmpty_iff.mp hdf
      simp only [get_summary_stats, hdf, if_true]
      rw [hnil]
      simp [uniqRows, dropDupBy]
    · simp only [get_summary_stats]
      rw [if_neg hdf]
      refine ⟨?_, rfl, ?_, rfl⟩
      · exact nunique_dropDupBy Row.pinNumber _
      · show ((uniqRows (create_dataframe records)).filter
            (fun r => summaryPass r.resultText)).length ≤
          nunique ((uniqRows (create_dataframe records)).map Row.pinNumber)
        simp only [uniqRows]
        rw [length_dropDupBy_eq Row.pinNumber]
        exact List.length_filter_le _ _
  · rfl

theorem branch_guard_iff (df : List Row) :
    (df = [] ∨ nunique (df.filterMap Row.branch) < 1) ↔
      (df = [] ∨ ∀ r ∈ df, r.branch = none) := by
  have h : nunique (df.filterMap Row.branch) < 1 ↔ ∀ r ∈ df, r.branch = none := by
    rw [nunique, Nat.lt_one_iff, List.length_eq_zero, List.dedup_eq_nil,
      List.filterMap_eq_nil_iff]
  rw [h]

theorem brLe_total : ∀ x y : BranchRow,
    decide (y.passRate ≤ x.passRate) = true ∨ decide (x.passRate ≤ y.passRate) = true := by
  intro x y
  rcases le_total y.passRate x.passRate with h | h
  · exact Or.inl (decide_eq_true h)
  · exact Or.inr (decide_eq_true h)

theorem brLe_trans : ∀ x y z : BranchRow,
    decide (y.passRate ≤ x.passRate) = true → decide (z.passRate ≤ y.passRate) = true →
      decide (z.passRate ≤ x.passRate) = true := by
  intro x y z h1 h2
  exact decide_eq_true (le_trans (of_decide_eq_true h2) (of_decide_eq_true h1))

/-- Claim C6: `get_branch_performance` signals "no data" (returns `None`)
exactly when the frame is empty or no row carries a branch value (so rows
missing a branch are excluded rather than grouped); otherwise the returned
table is sorted by descending pass rate and each row carries the pass count,
fail count, their sum as total, and `round(pass/total*100, 2)` computed over
the PIN-deduplicated rows of that branch. -/
theorem claim_C6_branch_performance (records : List Record) :
    (get_branch_performance records = none ↔
      create_dataframe records = [] ∨
        ∀ r ∈ create_dataframe records, r.branch = none) ∧
    ∀ tbl, get_branch_performance records = some tbl →
      List.Sorted (fun a b : BranchRow => b.passRate ≤ a.passRate) tbl ∧
      ∀ row ∈ tbl,
        row.passCount =
          branchPassCount (uniqRows (create_dataframe records)) row.branch ∧
        row.failCount =
          branchFailCount (uniqRows (create_dataframe records)) row.branch ∧
        row.totalCount = row.passCount + row.failCount ∧
        row.passRate = round2 ((row.passCount : ℚ) / (row.totalCount : ℚ) * 100) := by
  by_cases hg : create_dataframe records = [] ∨
      nunique ((create_dataframe records).filterMap Row.branch) < 1
  · have hnone : get_branch_performance records = none := by
      simp only [get_branch_performance]
      rw [if_pos hg]
    constructor
    · rw [hnone]
      simp only [true_iff]
      exact (branch_guard_iff _).mp hg
    · intro tbl htbl
      rw [hnone] at htbl
      exact absurd htbl (by simp)
  · have hsome : get_branch_performance records =
        some (sortByB (fun a b => decide (b.passRate ≤ a.passRate))
          ((firstDistinct ((uniqRows (create_dataframe records)).filterMap
            Row.branch)).map (mkBranchRow (uniqRows (create_dataframe records))))) := by
      simp only [get_branch_performance]
      rw [if_neg hg]
    constructor
    · constructor
      · intro h
        rw [hsome] at h
        exact absurd h (by simp)
      · intro hall
        exact absurd ((branch_guard_iff _).mpr hall) hg
    · intro tbl htbl
      rw [hsome] at htbl
      have htbl2 := Option.some.inj htbl
      subst htbl2
      constructor
      · exact List.Pairwise.imp (fun h => of_decide_eq_true h)
          (sorted_sortByB _ brLe_total brLe_trans _)
      · intro row hrow
        rw [mem_sortByB] at hrow
        rcases List.mem_map.mp hrow with ⟨b, hb, hroweq⟩
        subst hroweq
        exact ⟨rfl, rfl, rfl, rfl⟩

theorem exC6_eval : get_branch_performance exC6 = some exC6tbl := by
  simp only [get_branch_performance]
  rw [if_neg (by decide)]
  have hk : firstDistinct ((uniqRows (create_dataframe exC6)).filterMap Row.branch) =
      ["CM"] := by decide
  have hu : uniqRows (create_dataframe exC6) = [baseRow exRecC6] := by decide
  rw [hk, hu]
  have hp : branchPassCount [baseRow exRecC6] "CM" = 1 := by decide
  have hf : branchFailCount [baseRow exRecC6] "CM" = 0 := by decide
  simp only [List.map_cons, List.map_nil, sortByB, insertByB, mkBranchRow, hp, hf, exC6tbl]
  norm_num [round2, round_eq]

/-- Witness for C6: a concrete record set on which the table is produced and
sorted by descending pass rate. -/
theorem claim_C6_witness :
    get_branch_performance exC6 = some exC6tbl ∧
    List.Sorted (fun a b : BranchRow => b.passRate ≤ a.passRate) exC6tbl :=
  ⟨exC6_eval, ((claim_C6_branch_performance exC6).2 exC6tbl exC6_eval).1⟩

theorem sjLe_total : ∀ x y : SubjectStatsRow,
    decide (x.passRate ≤ y.passRate) = true ∨ decide (y.passRate ≤ x.passRate) = true := by
  intro x y
  rcases le_total x.passRate y.passRate with h | h
  · exact Or.inl (decide_eq_true h)
  · exact Or.inr (decide_eq_true h)

theorem sjLe_trans : ∀ x y z : SubjectStatsRow,
    decide (x.passRate ≤ y.passRate) = true → decide (y.passRate ≤ z.passRate) = true →
      decide (x.passRate ≤ z.passRate) = true := by
  intro x y z h1 h2
  exact decide_eq_true (le_trans (of_decide_eq_true h1) (of_decide_eq_true h2))

/-- Claim C7: `get_subject_analysis` works on the flattened one-row-per-
subject-per-student frame without PIN deduplication, drops rows with a
missing subject name or missing subject result (returning `None` when the
frame is empty or has no subject column), counts a row as Pass iff
`SUB.Result == "P"`, computes `round(pass/total*100, 2)` per subject, and
returns the table sorted by ascending pass rate. -/
theorem claim_C7_subject_analysis (records : List Record) :
    (get_subject_analysis records = none ↔
      create_dataframe records = [] ∨
        ∀ r ∈ create_dataframe records, r.subjectName = none) ∧
    ∀ tbl, get_subject_analysis records = some tbl →
      List.Sorted (fun a b : SubjectStatsRow => a.passRate ≤ b.passRate) tbl ∧
      ∀ row ∈ tbl,
        row.passCount =
          subjectPassCount (subjectRowsOf (create_dataframe records)) row.subjectName ∧
        row.failCount =
          subjectFailCount (subjectRowsOf (create_dataframe records)) row.subjectName ∧
        row.totalCount = row.passCount + row.failCount ∧
        row.passRate = round2 ((row.passCount : ℚ) / (row.totalCount : ℚ) * 100) := by
  by_cases hg : create_dataframe records = [] ∨
      ∀ r ∈ create_dataframe records, r.subjectName = none
  · have hnone : get_subject_analysis records = none := by
      simp only [get_subject_analysis]
      rw [if_pos hg]
    constructor
    · rw [hnone]
      simp only [true_iff]
      exact hg
    · intro tbl htbl
      rw [hnone] at htbl
      exact absurd htbl (by simp)
  · have hsome : get_subject_analysis records =
        some (sortByB (fun a b => decide (a.passRate ≤ b.passRate))
          ((firstDistinct ((subjectRowsOf (create_dataframe records)).filterMap
            Row.subjectName)).map
              (mkSubjectRow (subjectRowsOf (create_dataframe records))))) := by
      simp only [get_subject_analysis]
      rw [if_neg hg]
    constructor
    · constructor
      · intro h
        rw [hsome] at h
        exact absurd h (by simp)
      · intro hall
        exact absurd hall hg
    · intro tbl htbl
      rw [hsome] at htbl
      have htbl2 := Option.some.inj htbl
      subst htbl2
      constructor
      · exact List.Pairwise.imp (fun h => of_decide_eq_true h)
          (sorted_sortByB _ sjLe_total sjLe_trans _)
      · intro row hrow
        rw [mem_sortByB] at hrow
        rcases List.mem_map.mp hrow with ⟨b, hb, hroweq⟩
        subst hroweq
        exact ⟨rfl, rfl, rfl, rfl⟩

theorem exC7_eval : get_subject_analysis exC7 = some exC7tbl := by
  simp only [get_subject_analysis]
  rw [if_neg (by decide)]
  have hk : firstDistinct ((subjectRowsOf (create_dataframe exC7)).filterMap
      Row.subjectName) = ["Math"] := by decide
  have hs : subjectRowsOf (create_dataframe exC7) =
      [subjectRow exRecC7a slMathP, subjectRow exRecC7b slMathF] := by decide
  rw [hk, hs]
  have hp : subjectPassCount
      [subjectRow exRecC7a slMathP, subjectRow exRecC7b slMathF] "Math" = 1 := by decide
  have hf : subjectFailCount
      [subjectRow exRecC7a slMathP, subjectRow exRecC7b slMathF] "Math" = 1 := by decide
  simp only [List.map_cons, List.map_nil, sortByB, insertByB, mkSubjectRow, hp, hf, exC7tbl]
  norm_num [round2, round_eq]

/-- Witness for C7: a concrete record set (one Pass and one Fail Math line
from different students) on which the table is produced. -/
theorem claim_C7_witness :
    get_subject_analysis exC7 = some exC7tbl ∧
    List.Sorted (fun a b : SubjectStatsRow => a.passRate ≤ b.passRate) exC7tbl :=
  ⟨exC7_eval, ((claim_C7_subject_analysis exC7).2 exC7tbl exC7_eval).1⟩

/-- Counterexample for C5: on a duplicated identifier whose first record has
no gpa and whose second has one, the code (`dropna` before
`drop_duplicates`, line 195) keeps the student, while the claim's order
(deduplicate first, keeping the gpa-less first occurrence) would discard
it — so `get_top_performers` does not deduplicate before dropping rows with
absent gpa. -/
theorem claim_C5_counterexample :
    get_top_performers [exRecC5dup1, exRecC5dup2] 10 ≠
      topNClaimOrder [exRecC5dup1, exRecC5dup2] 10 := by decide

/-- Claim C5 as amended: `get_top_performers(n)` first drops rows with
absent gpa, then deduplicates by identifier (first occurrence wins), sorts
descending by gpa with ties broken by input order (stable insertion sort),
and takes the first `n` rows; on the example A=8.5, B=absent, C=9.1, n=2 it
returns [C, A] with B excluded. -/
theorem claim_C5_top_performers :
    (∀ (records : List Record) (n : ℕ),
      get_top_performers records n = topNAmended records n) ∧
    get_top_performers [exRecC5A, exRecC5B, exRecC5C] 2 =
      [⟨"C", some "Cara", some "EC", some qC⟩,
       ⟨"A", some "Alice", some "CM", some qA⟩] ∧
    qA = 17 / 2 ∧ qC = 91 / 10 := by
  refine ⟨?_, by decide, ?_, ?_⟩
  · intro records n
    by_cases h : (create_dataframe records).isEmpty = true
    · have hnil : create_dataframe records = [] := List.isEmpty_iff.mp h
      simp only [get_top_performers, topNAmended]
      rw [hnil]
      simp [dropDupBy, sortByB]
    · simp only [get_top_performers, topNAmended]
      rw [if_neg h]
  · rw [qA, Rat.mk'_eq_divInt, Rat.divInt_eq_div]; norm_num
  · rw [qC, Rat.mk'_eq_divInt, Rat.divInt_eq_div]; norm_num

/-! ## C10: case sensitivity divergence between the two classifiers -/

/-- Claim C10: the branch classifier (line 182) is case-sensitive and treats
a non-string (missing) resultText as Fail, while the summary classifier
(line 173) matches case-insensitively; consequently the record set with
resultText "pass" is counted passed (1 of 1) by `get_summary_stats` but
tallied as Fail (Pass=0, Fail=1, PassRate=0) by `get_branch_performance`. -/
theorem claim_C10_case_sensitivity :
    branchStatus (some "pass") = false ∧
    summaryPass (some "pass") = true ∧
    branchStatus none = false ∧
    (∀ s : String, branchStatus (some s) =
      (strContains s "Pass" || strContains s "Distinction" || strContains s "First")) ∧
    (∀ s : String, summaryPass (some s) =
      (strContainsCI s "Pass" || strContainsCI s "Distinction" ||
        strContainsCI s "First")) ∧
    get_summary_stats [exRecC10] = ⟨1, 1, 0⟩ ∧
    get_branch_performance [exRecC10] = some [⟨"CM", 0, 1, 1, 0⟩] := by
  refine ⟨by decide, by decide, rfl, fun s => rfl, fun s => rfl, by decide, ?_⟩
  simp only [get_branch_performance]
  rw [if_neg (by decide)]
  have hk : firstDistinct ((uniqRows (create_dataframe [exRecC10])).filterMap
      Row.branch) = ["CM"] := by decide
  have hu : uniqRows (create_dataframe [exRecC10]) = [baseRow exRecC10] := by decide
  rw [hk, hu]
  have hp : branchPassCount [baseRow exRecC10] "CM" = 0 := by decide
  have hf : branchFailCount [baseRow exRecC10] "CM" = 1 := by decide
  simp only [List.map_cons, List.map_nil, sortByB, insertByB, mkBranchRow, hp, hf]
  norm_num [round2, round_eq]
